import Mathlib

/-!
Shallow embedding of the SHEL photo-preparation code
(`src/photo_preparation_functions.py`, `src/download_best_model.py`).

Images are rectangular grids: a `Gray` holds one 8-bit sample per pixel, an
`Img` holds a BGR triple per pixel.  Pixel functions are total over `Nat`
coordinates; only coordinates below the stored height/width are meaningful.

The OpenCV primitives whose numerical content lives outside this repository
(grayscale conversion, Gaussian blur, Canny, contour retrieval, contour area,
polygon fill, resize interpolation) are collected in a `CV` record and the
pipeline is proved correct for every choice of that record; the primitives the
claims are actually about (threshold, erosion, bounding rectangle, mask
application, array slicing) are embedded concretely following the library
semantics the source relies on.
-/

/-- A BGR pixel: one 8-bit sample per channel. -/
abbrev Pixel := Nat × Nat × Nat

/-- A 3-channel image: height, width, and a pixel function. -/
structure Img where
  height : Nat
  width : Nat
  pix : Nat → Nat → Pixel

/-- A single-channel (grayscale / binary) image. -/
structure Gray where
  height : Nat
  width : Nat
  pix : Nat → Nat → Nat

/-- A contour as returned by `cv.findContours`: a list of integer points. -/
abbrev Contour := List (Int × Int)

/-- The external OpenCV primitives used by the pipeline, as pixel-level
functions.  Dimension bookkeeping (each of these preserves or sets the spatial
dimensions) is done at the call sites, exactly as the library documents. -/
structure CV where
  grayOf : Img → Nat → Nat → Nat
  blurOf : Gray → Nat → Nat → Nat
  cannyOf : Gray → Nat → Nat → Nat
  findContours : Gray → List Contour
  contourArea : Contour → Nat
  fillPolyOf : Gray → Contour → Nat → Nat → Nat
  resizeOf : Img → Nat → Nat → Nat → Nat → Pixel

/-- Failures of the isolation pipeline.  `valueErrorEmptySeq` is the uncaught
Python `ValueError` raised by `max` on an empty sequence;
`noForegroundDetected` is the tagged error the specification asks for (the
source never produces it). -/
inductive IsolErr where
  | valueErrorEmptySeq
  | noForegroundDetected
deriving DecidableEq

/-- Python's `max(xs, key=f)` : raises `ValueError` on an empty sequence,
otherwise returns the first element attaining the maximal key. -/
def pyMaxBy (f : Contour → Nat) : List Contour → Except IsolErr Contour
  | [] => Except.error IsolErr.valueErrorEmptySeq
  | c :: cs => Except.ok (cs.foldl (fun best d => if f best < f d then d else best) c)

/-- `cv.threshold(..., thresh, maxval, cv.THRESH_BINARY)` per sample:
`maxval` when the sample is strictly greater than `thresh`, else `0`. -/
def cvThreshBinary (thresh maxval v : Nat) : Nat :=
  if thresh < v then maxval else 0

/-- Thresholding a grayscale image pointwise (`cv.threshold`, THRESH_BINARY). -/
def thresholdImg (thresh maxval : Nat) (g : Gray) : Gray :=
  ⟨g.height, g.width, fun i j => cvThreshBinary thresh maxval (g.pix i j)⟩

/-- Offsets of the 5×5 all-ones structuring element, anchored at its center. -/
def kernelOffsets : List (Int × Int) :=
  [(-2, -2), (-2, -1), (-2, 0), (-2, 1), (-2, 2),
   (-1, -2), (-1, -1), (-1, 0), (-1, 1), (-1, 2),
   (0, -2), (0, -1), (0, 0), (0, 1), (0, 2),
   (1, -2), (1, -1), (1, 0), (1, 1), (1, 2),
   (2, -2), (2, -1), (2, 0), (2, 1), (2, 2)]

/-- One accumulation step of the erosion minimum: take the neighbour at offset
`d` into account when it lies inside the image (out-of-range neighbours are
ignored, matching `cv.erode`'s default border handling, which pads with the
maximal value for erosion). -/
def erodeStep (g : Gray) (i j : Nat) (acc : Nat) (d : Int × Int) : Nat :=
  let i2 : Int := (i : Int) + d.1
  let j2 : Int := (j : Int) + d.2
  if 0 ≤ i2 ∧ i2 < (g.height : Int) ∧ 0 ≤ j2 ∧ j2 < (g.width : Int) then
    min acc (g.pix i2.toNat j2.toNat)
  else acc

/-- `cv.erode` with the 5×5 all-ones kernel at one pixel: the minimum of the
image over the in-range part of the neighbourhood (which always contains the
anchor pixel itself). -/
def erodePix (g : Gray) (i j : Nat) : Nat :=
  kernelOffsets.foldl (erodeStep g i j) (g.pix i j)

/-- `cv.erode(mask, np.ones((5, 5)))`, one iteration. -/
def erodeImg (g : Gray) : Gray :=
  ⟨g.height, g.width, fun i j => erodePix g i j⟩

/-- The set of in-range "on" (nonzero) pixels of a mask, as (row, column). -/
def onSet (g : Gray) : Finset (Nat × Nat) :=
  (Finset.range g.height ×ˢ Finset.range g.width).filter (fun p => g.pix p.1 p.2 ≠ 0)

/-- Number of "on" pixels of a mask. -/
def onCount (g : Gray) : Nat := (onSet g).card

/-- `cv.boundingRect`: the minimal axis-aligned rectangle `(x, y, w, h)`
containing every nonzero pixel (`x` a column, `y` a row); `(0, 0, 0, 0)` when
the mask is all zero. -/
def boundingRect (g : Gray) : Nat × Nat × Nat × Nat :=
  if hs : (onSet g).Nonempty then
    let x := (onSet g).inf' hs (fun p => p.2)
    let bigX := (onSet g).sup' hs (fun p => p.2)
    let y := (onSet g).inf' hs (fun p => p.1)
    let bigY := (onSet g).sup' hs (fun p => p.1)
    (x, y, bigX - x + 1, bigY - y + 1)
  else (0, 0, 0, 0)

/-- Normalisation of one slice endpoint, Python/numpy semantics for step 1:
a negative endpoint counts from the end of the axis, then both are clamped
into `[0, n]`. -/
def normIdx (a : Int) (n : Nat) : Nat :=
  if a < 0 then (a + (n : Int)).toNat else min a.toNat n

/-- The row (or column) indices selected by the numpy slice `start:stop` on an
axis of length `n`: empty whenever the normalised start is not below the
normalised stop. -/
def sliceIdx (start stop : Int) (n : Nat) : List Nat :=
  List.range' (normIdx start n) (normIdx stop n - normIdx start n)

/-- `find_edges` (Python lines 17–24): grayscale, 3×3 Gaussian blur, Canny
with thresholds 50/100.  All three preserve the spatial dimensions. -/
def find_edges (cvo : CV) (img : Img) : Gray :=
  let grayscale : Gray := ⟨img.height, img.width, cvo.grayOf img⟩
  let blurred_img : Gray := ⟨grayscale.height, grayscale.width, cvo.blurOf grayscale⟩
  ⟨blurred_img.height, blurred_img.width, cvo.cannyOf blurred_img⟩

/-- `create_mask` (Python lines 27–41): edge map, contours,
`max(contours, key=cv.contourArea)` (a `ValueError` crash when there are no
contours), fill of the largest contour onto a copy of the edge map, threshold
at 180, one 5×5 erosion. -/
def create_mask (cvo : CV) (img : Img) : Except IsolErr Gray :=
  let edged_img := find_edges cvo img
  let contours := cvo.findContours edged_img
  (pyMaxBy cvo.contourArea contours).map (fun largest =>
    let filled_card : Gray := ⟨edged_img.height, edged_img.width, cvo.fillPolyOf edged_img largest⟩
    let mask := thresholdImg 180 255 filled_card
    erodeImg mask)

/-- `cv.resize(img, (int(width / 4), int(height / 4)))`: the output dimensions
of the working image; interpolated content comes from the `CV` record. -/
def resizeImg (cvo : CV) (img : Img) : Img :=
  ⟨img.height / 4, img.width / 4, cvo.resizeOf img (img.width / 4) (img.height / 4)⟩

/-- `cv.bitwise_and(img, img, mask=mask)`: keep pixels where the mask is
nonzero, zero the rest. -/
def applyMask (img : Img) (mask : Gray) : Img :=
  ⟨img.height, img.width, fun i j => if mask.pix i j ≠ 0 then img.pix i j else (0, 0, 0)⟩

/-- `img[y - 5 : y + h + 5, x - 5 : x + w + 5]` (Python lines 53–55): numpy
slicing of both axes around the bounding rectangle `(x, y, w, h)`, with no
clamping of the negative-start case beyond numpy's own wrap-around rule. -/
def cropToRect (img : Img) (r : Nat × Nat × Nat × Nat) : Img :=
  match r with
  | (x, y, w, h) =>
    let rows := sliceIdx ((y : Int) - 5) ((y : Int) + (h : Int) + 5) img.height
    let cols := sliceIdx ((x : Int) - 5) ((x : Int) + (w : Int) + 5) img.width
    ⟨rows.length, cols.length, fun a b => img.pix (rows.getD a 0) (cols.getD b 0)⟩

/-- `crop_image` (Python lines 44–56): resize by ÷4 on each axis, build the
mask, black out the background, slice around the bounding rectangle expanded
by 5 pixels on every side. -/
def crop_image (cvo : CV) (img : Img) : Except IsolErr Img :=
  let resized := resizeImg cvo img
  (create_mask cvo resized).map (fun mask =>
    cropToRect (applyMask resized mask) (boundingRect mask))

/-- Height of a successful crop result, `none` on failure. -/
def exceptHeight : Except IsolErr Img → Option Nat
  | Except.ok c => some c.height
  | Except.error _ => none

/-- Python `str.split(sep)` for a one-character separator, on the character
list, accumulator-passing form. -/
def pySplitAux (sep : Char) : List Char → List Char → List (List Char)
  | [], acc => [acc.reverse]
  | c :: rest, acc =>
    if c = sep then acc.reverse :: pySplitAux sep rest []
    else pySplitAux sep rest (c :: acc)

/-- Python `str.split(sep)` for a one-character separator. -/
def pySplit (sep : Char) (s : List Char) : List (List Char) :=
  pySplitAux sep s []

/-- `input_photo_path.split("/")[-1].split(".")[0]` (Python line 63): the last
`/`-separated component of the path, truncated at its first dot. -/
def photoNameWithoutExtension (input_photo_path : String) : String :=
  ⟨(pySplit '.' ((pySplit '/' input_photo_path.data).getLastD [])).headD []⟩

/-- `cv.imwrite` into a directory listing: overwrite the entry with that path
if present, otherwise append it. -/
def writeFile (files : List (String × Img)) (path : String) (card : Img) :
    List (String × Img) :=
  if (files.map Prod.fst).contains path then
    files.map (fun e => if e.1 = path then (path, card) else e)
  else files ++ [(path, card)]

/-- The output path `save_image` writes to (Python line 64). -/
def savePath (input_photo_path output_folder : String) : String :=
  output_folder ++ "/" ++ photoNameWithoutExtension input_photo_path ++ ".jpg"

/-- `save_image` (Python lines 59–64) acting on a directory listing. -/
def save_image (input_photo_path output_folder : String)
    (files : List (String × Img)) (card : Img) : List (String × Img) :=
  writeFile files (savePath input_photo_path output_folder) card

/-- `create_playing_card_dir` (Python lines 67–74): append `"_processed"`,
create the directory only when it does not already exist, return it. -/
def create_playing_card_dir (photo_DIR : String) (existingDirs : List String) :
    String × List String :=
  let PLAYING_CARDS_DIR := photo_DIR ++ "_processed"
  if existingDirs.contains PLAYING_CARDS_DIR then (PLAYING_CARDS_DIR, existingDirs)
  else (PLAYING_CARDS_DIR, PLAYING_CARDS_DIR :: existingDirs)

/-- What a directory entry decodes to: a readable color photo, a file
`cv.imread` cannot decode, or a sub-directory. -/
inductive FileKind where
  | image (img : Img)
  | nonImage
  | subdir
deriving Inhabited

/-- `cv.imread`: a decoded color image for a readable photo, `None` (here
`none`) for anything else — unreadable files and directories alike. -/
def imread : FileKind → Option Img
  | FileKind.image img => some img
  | FileKind.nonImage => none
  | FileKind.subdir => none

/-- How a batch run aborts.  `noneTypeShapeError` is the uncaught Python
`AttributeError` from unpacking `img.shape` when `cv.imread` returned `None`
(Python line 48); `isolFailure` propagates a pipeline error. -/
inductive BatchErr where
  | noneTypeShapeError (path : String)
  | isolFailure (e : IsolErr) (path : String)

/-- The per-photo loop of `process_photos` (Python lines 84–87): read, crop,
save; any failure aborts the remainder of the batch. -/
def processLoop (cvo : CV) (photosDir outDir : String) :
    List (String × FileKind) → List (String × Img) →
    Except BatchErr (List (String × Img))
  | [], files => Except.ok files
  | (nm, k) :: rest, files =>
    match imread k with
    | none => Except.error (BatchErr.noneTypeShapeError (photosDir ++ "/" ++ nm))
    | some photo =>
      match crop_image cvo photo with
      | Except.error e => Except.error (BatchErr.isolFailure e (photosDir ++ "/" ++ nm))
      | Except.ok card =>
        processLoop cvo photosDir outDir rest
          (save_image (photosDir ++ "/" ++ nm) outDir files card)

/-- `process_photos` (Python lines 77–89): create the `_processed` sibling
directory if absent, enumerate the entries of the input directory, and run the
per-photo loop over them.  Returns the output directory name, the directory
listing after creation, and the files written. -/
def process_photos (cvo : CV) (PHOTOS_DIR : String) (existingDirs : List String)
    (entries : List (String × FileKind)) (outFiles : List (String × Img)) :
    Except BatchErr (String × List String × List (String × Img)) :=
  let created := create_playing_card_dir PHOTOS_DIR existingDirs
  (processLoop cvo PHOTOS_DIR created.1 entries outFiles).map
    (fun files => (created.1, created.2, files))

/-- Number of files written by a successful batch run, `none` on abort. -/
def batchFileCount : Except BatchErr (String × List String × List (String × Img)) →
    Option Nat
  | Except.ok r => some r.2.2.length
  | Except.error _ => none

/-- Filesystem state seen by `get_model`: whether `<cwd>/models` and
`<cwd>/models/best.pt` exist. -/
structure ModelFS where
  modelsDirExists : Bool
  bestExists : Bool

/-- `download_from_drive` (download_best_model.py lines 8–10): best-effort
fetch into the target path; `succeeds` says whether the fetch actually
produced the file (no validation or retry in the source). -/
def download_from_drive (succeeds : Bool) (fs : ModelFS) : ModelFS :=
  if succeeds then { fs with bestExists := true } else fs

/-- `get_model` (download_best_model.py lines 12–22): build the two paths,
create the directory and download when the directory is absent, download when
the file is absent, return the file path.  The result records the returned
path, the final state, and how many times the download ran. -/
def get_model (succeeds : Bool) (cwd : String) (fs : ModelFS) :
    String × ModelFS × Nat :=
  let MODELS_DIR := cwd ++ "/models"
  let BEST_MODEL_PATH := MODELS_DIR ++ "/best.pt"
  let step1 :=
    if fs.modelsDirExists = false then
      (download_from_drive succeeds { fs with modelsDirExists := true }, 1)
    else (fs, 0)
  let step2 :=
    if step1.1.bestExists = false then (download_from_drive succeeds step1.1, 1)
    else (step1.1, 0)
  (BEST_MODEL_PATH, step2.1, step1.2 + step2.2)

/-! ### Concrete fixtures

Concrete `CV` records standing for possible outputs of the external vision
primitives on particular photos, used to evaluate the pipeline at concrete
inputs. -/

/-- A photo on which Canny finds no edges: `cv.findContours` returns no
contours at all. -/
def cvNoEdges : CV :=
  { grayOf := fun _ _ _ => 0, blurOf := fun _ _ _ => 0, cannyOf := fun _ _ _ => 0,
    findContours := fun _ => [], contourArea := fun _ => 0,
    fillPolyOf := fun _ _ _ _ => 0, resizeOf := fun _ _ _ _ _ => (0, 0, 0) }

/-- A uniform photo (no intensity transitions anywhere). -/
def imgBlack : Img := ⟨64, 64, fun _ _ => (0, 0, 0)⟩

/-- A photo whose card touches the top edge of the frame: the filled largest
contour covers the top three rows of the working image. -/
def cvTopStripe : CV :=
  { grayOf := fun _ _ _ => 0, blurOf := fun _ _ _ => 0, cannyOf := fun _ _ _ => 0,
    findContours := fun _ => [[(0, 0)]], contourArea := fun _ => 0,
    fillPolyOf := fun _ _ i _ => if i < 3 then 255 else 0,
    resizeOf := fun _ _ _ _ _ => (7, 7, 7) }

/-- A 44×44 photo, resized by the pipeline to an 11×11 working image. -/
def img44 : Img := ⟨44, 44, fun _ _ => (1, 2, 3)⟩

/-- The mask `create_mask` produces for `cvTopStripe` on the 11×11 working
image: after the 5×5 erosion only the top row stays on. -/
def maskStripe : Gray :=
  erodeImg (thresholdImg 180 255 ⟨11, 11, fun i _ => if i < 3 then 255 else 0⟩)

/-- Filled silhouette of a card centered in the 300×250 working image of a
1000×1200 photo: rows 100–149, columns 80–119. -/
def fillPixCard : Nat → Nat → Nat :=
  fun i j => if 100 ≤ i ∧ i < 150 ∧ 80 ≤ j ∧ j < 120 then 255 else 0

/-- A 1000×1200 photo of a single card centered on a plain background: the
largest contour fills to `fillPixCard`. -/
def cvCard : CV :=
  { grayOf := fun _ _ _ => 0, blurOf := fun _ _ _ => 0, cannyOf := fun _ _ _ => 0,
    findContours := fun _ => [[(0, 0)]], contourArea := fun _ => 0,
    fillPolyOf := fun _ _ => fillPixCard, resizeOf := fun _ _ _ _ _ => (9, 9, 9) }

/-- The 1000×1200 photo itself (height 1200, width 1000). -/
def imgCard : Img := ⟨1200, 1000, fun _ _ => (1, 2, 3)⟩

/-- The mask `create_mask` computes for `cvCard` on `imgCard`. -/
def maskCard : Gray := erodeImg (thresholdImg 180 255 ⟨300, 250, fillPixCard⟩)

/-- Directory listing with three readable photo files, two of whose names
agree on the part before their first dot: `a.b.png` and `a.c.png` collide. -/
def entriesDotNames : List (String × FileKind) :=
  [("a.b.png", FileKind.image img44), ("a.c.png", FileKind.image img44),
   ("d.png", FileKind.image img44)]

/-- The value `crop_image` returns on the 44×44 top-stripe photo. -/
def cardC : Img :=
  match crop_image cvTopStripe img44 with
  | Except.ok c => c
  | Except.error _ => ⟨0, 0, fun _ _ => (0, 0, 0)⟩

/-! ### Helper lemmas -/

/-- One erosion step never raises the running minimum. -/
theorem erodeStep_le (g : Gray) (i j acc : Nat) (d : Int × Int) :
    erodeStep g i j acc d ≤ acc := by
  simp only [erodeStep]
  split
  · exact min_le_left _ _
  · exact le_refl acc

/-- Folding erosion steps never raises the initial value. -/
theorem foldl_erodeStep_le (g : Gray) (i j : Nat) :
    ∀ (l : List (Int × Int)) (acc : Nat), l.foldl (erodeStep g i j) acc ≤ acc := by
  intro l
  induction l with
  | nil => intro acc; exact le_refl acc
  | cons d rest ih =>
    intro acc
    calc (d :: rest).foldl (erodeStep g i j) acc
        = rest.foldl (erodeStep g i j) (erodeStep g i j acc d) := rfl
      _ ≤ erodeStep g i j acc d := ih _
      _ ≤ acc := erodeStep_le g i j acc d

/-- The eroded value at a pixel never exceeds the original value there: the
5×5 neighbourhood minimum includes the anchor pixel. -/
theorem erodePix_le (g : Gray) (i j : Nat) : erodePix g i j ≤ g.pix i j :=
  foldl_erodeStep_le g i j kernelOffsets (g.pix i j)

/-- Element `m` of `List.range' s k` (when `m < k`) is `s + m`. -/
theorem range'_getD : ∀ (k s m : Nat), m < k → (List.range' s k).getD m 0 = s + m := by
  intro k
  induction k with
  | zero => intro s m h; omega
  | succ n ih =>
    intro s m h
    rw [List.range'_succ]
    cases m with
    | zero => simp [List.getD]
    | succ m' =>
      have := ih (s + 1) m' (by omega)
      simp only [List.getD_cons_succ]
      omega

/-- Appending the same strings on both sides of distinct strings keeps them
distinct. -/
theorem strAppend_ne (a b x y : String) (h : x ≠ y) : a ++ x ++ b ≠ a ++ y ++ b := by
  intro he
  apply h
  apply String.ext
  have hd := congrArg String.data he
  simp only [String.data_append] at hd
  rw [List.append_assoc, List.append_assoc] at hd
  exact List.append_cancel_right (List.append_cancel_left hd)

/-- `contains` on the empty listing is false. -/
theorem contains_nil_false (q : String) : (([] : List String).contains q) = false := rfl

/-- `contains` stays false when consing a different string. -/
theorem contains_cons_false (p q : String) (l : List String) (h : q ≠ p)
    (h2 : l.contains q = false) : ((p :: l).contains q) = false := by
  rw [List.contains_cons, h2]
  simp [h]

/-- When the expanded rectangle fits inside the image (start at least 5 from
the top/left edge, stop at least 5 from the bottom/right edge), the numpy
slice of `cropToRect` selects exactly the rows `y - 5 … y + h + 4` and the
columns `x - 5 … x + w + 4`. -/
theorem cropToRect_spec (img2 : Img) (x y w h : Nat)
    (hy : 5 ≤ y) (hx : 5 ≤ x)
    (hrow : y + h + 5 ≤ img2.height) (hcol : x + w + 5 ≤ img2.width) :
    (cropToRect img2 (x, y, w, h)).height = h + 10 ∧
    (cropToRect img2 (x, y, w, h)).width = w + 10 ∧
    (∀ a b, a < h + 10 → b < w + 10 →
      (cropToRect img2 (x, y, w, h)).pix a b = img2.pix (y - 5 + a) (x - 5 + b)) := by
  have hstart_r : normIdx ((y : Int) - 5) img2.height = y - 5 := by
    simp only [normIdx]
    rw [if_neg (by omega)]
    omega
  have hstop_r : normIdx ((y : Int) + (h : Int) + 5) img2.height = y + h + 5 := by
    simp only [normIdx]
    rw [if_neg (by omega)]
    omega
  have hstart_c : normIdx ((x : Int) - 5) img2.width = x - 5 := by
    simp only [normIdx]
    rw [if_neg (by omega)]
    omega
  have hstop_c : normIdx ((x : Int) + (w : Int) + 5) img2.width = x + w + 5 := by
    simp only [normIdx]
    rw [if_neg (by omega)]
    omega
  have hdr : y + h + 5 - (y - 5) = h + 10 := by omega
  have hdc : x + w + 5 - (x - 5) = w + 10 := by omega
  refine ⟨?_, ?_, ?_⟩
  · show (sliceIdx ((y : Int) - 5) ((y : Int) + (h : Int) + 5) img2.height).length = h + 10
    simp only [sliceIdx, hstart_r, hstop_r, hdr, List.length_range']
  · show (sliceIdx ((x : Int) - 5) ((x : Int) + (w : Int) + 5) img2.width).length = w + 10
    simp only [sliceIdx, hstart_c, hstop_c, hdc, List.length_range']
  · intro a b ha hb
    show img2.pix
      ((sliceIdx ((y : Int) - 5) ((y : Int) + (h : Int) + 5) img2.height).getD a 0)
      ((sliceIdx ((x : Int) - 5) ((x : Int) + (w : Int) + 5) img2.width).getD b 0) =
      img2.pix (y - 5 + a) (x - 5 + b)
    rw [show (sliceIdx ((y : Int) - 5) ((y : Int) + (h : Int) + 5) img2.height).getD a 0
        = y - 5 + a from by
      simp only [sliceIdx, hstart_r, hstop_r, hdr]
      exact range'_getD (h + 10) (y - 5) a ha]
    rw [show (sliceIdx ((x : Int) - 5) ((x : Int) + (w : Int) + 5) img2.width).getD b 0
        = x - 5 + b from by
      simp only [sliceIdx, hstart_c, hstop_c, hdc]
      exact range'_getD (w + 10) (x - 5) b hb]

/-! ### Claim theorems -/

/-- Claim C1: the claim says that with zero contours the isolation fails with
an explicit "no foreground detected" error and never with an
empty-collection aggregation fault.  Evaluating `create_mask` at a photo whose
edge map yields zero contours shows the code aborts with the uncaught
`ValueError` of Python's `max` on an empty sequence — an empty-collection
aggregation fault, not the tagged `noForegroundDetected` error. -/
theorem c1_create_mask_empty_contours_value_error :
    create_mask cvNoEdges imgBlack = Except.error IsolErr.valueErrorEmptySeq ∧
    IsolErr.valueErrorEmptySeq ≠ IsolErr.noForegroundDetected :=
  ⟨rfl, by decide⟩

set_option maxRecDepth 8000 in
/-- Claim C2: the claim says the expanded bounding rectangle is clamped to the
image bounds, so a bounding box starting within 5 pixels of the top edge never
silently yields a smaller or empty crop.  Evaluating `crop_image` on a photo
whose mask touches the top edge (bounding rectangle `(0, 0, 11, 1)` on the
11×11 working image, 11 pixels on) shows the slice start `0 - 5 = -5` wraps
around under numpy semantics and the crop comes back with height `0`: an
empty region, with no clamping anywhere in the code. -/
theorem c2_crop_top_edge_not_clamped :
    create_mask cvTopStripe (resizeImg cvTopStripe img44) = Except.ok maskStripe ∧
    boundingRect maskStripe = (0, 0, 11, 1) ∧
    onCount maskStripe = 11 ∧
    exceptHeight (crop_image cvTopStripe img44) = some 0 :=
  ⟨rfl, by decide, by decide, by decide⟩

/-- Claim C3 counterexample: the claim says a pixel of intensity exactly 180
becomes 255 (foreground).  `cv.threshold` with `THRESH_BINARY` uses a strict
comparison, so a pixel of intensity exactly 180 becomes 0. -/
theorem c3_counterexample_threshold_at_180 :
    (thresholdImg 180 255 ⟨1, 1, fun _ _ => 180⟩).pix 0 0 = 0 ∧
    (thresholdImg 180 255 ⟨1, 1, fun _ _ => 180⟩).pix 0 0 ≠ 255 := by
  decide

/-- Claim C3 (amended): in the threshold step of `create_mask`, a pixel of the
filled silhouette maps to 255 exactly when its intensity is strictly greater
than 180, and to 0 exactly when its intensity is at most 180; in particular a
pixel of intensity exactly 180 becomes 0 (background). -/
theorem c3_threshold_strictly_greater (g : Gray) (i j : Nat) :
    ((thresholdImg 180 255 g).pix i j = 255 ↔ 180 < g.pix i j) ∧
    ((thresholdImg 180 255 g).pix i j = 0 ↔ g.pix i j ≤ 180) := by
  simp only [thresholdImg, cvThreshBinary]
  split_ifs with h
  · exact ⟨⟨fun _ => h, fun _ => rfl⟩, ⟨False.elim, fun hle => absurd hle (by omega)⟩⟩
  · exact ⟨⟨fun hF => hF.elim, fun hlt => absurd hlt h⟩, ⟨fun _ => by omega, fun _ => rfl⟩⟩

/-- Claim C4: the 5×5 all-ones morphological erosion applied in `create_mask`
never increases the number of "on" pixels of a mask: every pixel on in the
eroded mask was already on in the input (the neighbourhood minimum includes
the anchor pixel). -/
theorem c4_erode_never_increases_onCount (g : Gray) :
    onCount (erodeImg g) ≤ onCount g := by
  apply Finset.card_le_card
  intro p hp
  simp only [onSet, erodeImg, Finset.mem_filter, Finset.mem_product,
    Finset.mem_range] at hp ⊢
  refine ⟨hp.1, ?_⟩
  have hle := erodePix_le g p.1 p.2
  have hne := hp.2
  omega

/-- Claim C5: `crop_image` works at the ÷4 fixed-divisor scale (a 1000×1200
photo is processed at 250×300), and — with "single card centered on a plain
background" formalised as: the computed mask is on only strictly inside the
working frame with a margin greater than 5 pixels on every side, and on
somewhere — the crop succeeds and is a non-empty image of width less than 250
and height less than 300 whose four corner pixels are black. -/
theorem c5_crop_centered_card (cvo : CV) (img : Img) (mask : Gray)
    (hH : img.height = 1200) (hW : img.width = 1000)
    (hmask : create_mask cvo (resizeImg cvo img) = Except.ok mask)
    (hsupp : ∀ i j, i < 300 → j < 250 → mask.pix i j ≠ 0 →
      6 ≤ i ∧ i < 294 ∧ 6 ≤ j ∧ j < 244)
    (hne : ∃ i j, i < 300 ∧ j < 250 ∧ mask.pix i j ≠ 0) :
    (resizeImg cvo img).height = 300 ∧ (resizeImg cvo img).width = 250 ∧
    ∃ c, crop_image cvo img = Except.ok c ∧
      0 < c.height ∧ c.height < 300 ∧ 0 < c.width ∧ c.width < 250 ∧
      c.pix 0 0 = (0, 0, 0) ∧ c.pix 0 (c.width - 1) = (0, 0, 0) ∧
      c.pix (c.height - 1) 0 = (0, 0, 0) ∧
      c.pix (c.height - 1) (c.width - 1) = (0, 0, 0) := by
  have hrh : (resizeImg cvo img).height = 300 := by simp [resizeImg, hH]
  have hrw : (resizeImg cvo img).width = 250 := by simp [resizeImg, hW]
  have hmdim : mask.height = 300 ∧ mask.width = 250 := by
    have hcm := hmask
    simp only [create_mask] at hcm
    rcases hpm : pyMaxBy cvo.contourArea
        (cvo.findContours (find_edges cvo (resizeImg cvo img))) with _ | largest
    · rw [hpm] at hcm
      simp [Except.map] at hcm
    · rw [hpm] at hcm
      simp only [Except.map, Except.ok.injEq] at hcm
      rw [← hcm]
      exact ⟨hrh, hrw⟩
  have hsne : (onSet mask).Nonempty := by
    obtain ⟨i, j, hi, hj, hp⟩ := hne
    refine ⟨(i, j), ?_⟩
    simp only [onSet, Finset.mem_filter, Finset.mem_product, Finset.mem_range]
    exact ⟨⟨by rw [hmdim.1]; exact hi, by rw [hmdim.2]; exact hj⟩, hp⟩
  have hbnd : ∀ p ∈ onSet mask, 6 ≤ p.1 ∧ p.1 < 294 ∧ 6 ≤ p.2 ∧ p.2 < 244 := by
    intro p hp
    simp only [onSet, Finset.mem_filter, Finset.mem_product, Finset.mem_range] at hp
    refine hsupp p.1 p.2 ?_ ?_ hp.2
    · rw [← hmdim.1]; exact hp.1.1
    · rw [← hmdim.2]; exact hp.1.2
  obtain ⟨x, hxeq⟩ : ∃ v, v = (onSet mask).inf' hsne (fun p => p.2) := ⟨_, rfl⟩
  obtain ⟨bigX, hXeq⟩ : ∃ v, v = (onSet mask).sup' hsne (fun p => p.2) := ⟨_, rfl⟩
  obtain ⟨y, hyeq⟩ : ∃ v, v = (onSet mask).inf' hsne (fun p => p.1) := ⟨_, rfl⟩
  obtain ⟨bigY, hYeq⟩ : ∃ v, v = (onSet mask).sup' hsne (fun p => p.1) := ⟨_, rfl⟩
  have hx6 : 6 ≤ x := by
    rw [hxeq]
    exact Finset.le_inf' hsne _ (fun b hb => (hbnd b hb).2.2.1)
  have hX243 : bigX ≤ 243 := by
    rw [hXeq]
    exact Finset.sup'_le hsne _ (fun b hb => by have := (hbnd b hb).2.2.2; omega)
  have hy6 : 6 ≤ y := by
    rw [hyeq]
    exact Finset.le_inf' hsne _ (fun b hb => (hbnd b hb).1)
  have hY293 : bigY ≤ 293 := by
    rw [hYeq]
    exact Finset.sup'_le hsne _ (fun b hb => by have := (hbnd b hb).2.1; omega)
  obtain ⟨p0, hp0⟩ := id hsne
  have hxX : x ≤ bigX := by
    rw [hxeq, hXeq]
    exact le_trans (Finset.inf'_le (fun p : Nat × Nat => p.2) hp0)
      (Finset.le_sup' (fun p : Nat × Nat => p.2) hp0)
  have hyY : y ≤ bigY := by
    rw [hyeq, hYeq]
    exact le_trans (Finset.inf'_le (fun p : Nat × Nat => p.1) hp0)
      (Finset.le_sup' (fun p : Nat × Nat => p.1) hp0)
  have hoff : ∀ i j, i < 300 → j < 250 →
      (i < y ∨ bigY < i ∨ j < x ∨ bigX < j) → mask.pix i j = 0 := by
    intro i j hi hj hcase
    by_contra hnz
    have hmem : (i, j) ∈ onSet mask := by
      simp only [onSet, Finset.mem_filter, Finset.mem_product, Finset.mem_range]
      exact ⟨⟨by rw [hmdim.1]; exact hi, by rw [hmdim.2]; exact hj⟩, hnz⟩
    have h1 : y ≤ i := by
      rw [hyeq]; exact Finset.inf'_le (fun p : Nat × Nat => p.1) hmem
    have h2 : i ≤ bigY := by
      rw [hYeq]; exact Finset.le_sup' (fun p : Nat × Nat => p.1) hmem
    have h3 : x ≤ j := by
      rw [hxeq]; exact Finset.inf'_le (fun p : Nat × Nat => p.2) hmem
    have h4 : j ≤ bigX := by
      rw [hXeq]; exact Finset.le_sup' (fun p : Nat × Nat => p.2) hmem
    omega
  have hbr : boundingRect mask = (x, y, bigX - x + 1, bigY - y + 1) := by
    rw [hxeq, hXeq, hyeq, hYeq]
    simp only [boundingRect]
    rw [dif_pos hsne]
  have hmasked_h : (applyMask (resizeImg cvo img) mask).height = 300 := hrh
  have hmasked_w : (applyMask (resizeImg cvo img) mask).width = 250 := hrw
  have hspec := cropToRect_spec (applyMask (resizeImg cvo img) mask)
    x y (bigX - x + 1) (bigY - y + 1) (by omega) (by omega)
    (by rw [hmasked_h]; omega) (by rw [hmasked_w]; omega)
  refine ⟨hrh, hrw,
    cropToRect (applyMask (resizeImg cvo img) mask) (x, y, bigX - x + 1, bigY - y + 1),
    ?_, ?_, ?_, ?_, ?_, ?_, ?_, ?_, ?_⟩
  · simp only [crop_image]
    rw [hmask]
    simp only [Except.map]
    rw [hbr]
  · rw [hspec.1]
    omega
  · rw [hspec.1]
    omega
  · rw [hspec.2.1]
    omega
  · rw [hspec.2.1]
    omega
  · rw [hspec.2.2 0 0 (by omega) (by omega)]
    simp only [applyMask]
    rw [hoff (y - 5 + 0) (x - 5 + 0) (by omega) (by omega) (by omega)]
    simp
  · rw [hspec.2.1]
    rw [hspec.2.2 0 (bigX - x + 1 + 10 - 1) (by omega) (by omega)]
    simp only [applyMask]
    rw [hoff (y - 5 + 0) (x - 5 + (bigX - x + 1 + 10 - 1)) (by omega) (by omega)
      (by omega)]
    simp
  · rw [hspec.1]
    rw [hspec.2.2 (bigY - y + 1 + 10 - 1) 0 (by omega) (by omega)]
    simp only [applyMask]
    rw [hoff (y - 5 + (bigY - y + 1 + 10 - 1)) (x - 5 + 0) (by omega) (by omega)
      (by omega)]
    simp
  · rw [hspec.1, hspec.2.1]
    rw [hspec.2.2 (bigY - y + 1 + 10 - 1) (bigX - x + 1 + 10 - 1) (by omega) (by omega)]
    simp only [applyMask]
    rw [hoff (y - 5 + (bigY - y + 1 + 10 - 1)) (x - 5 + (bigX - x + 1 + 10 - 1))
      (by omega) (by omega) (by omega)]
    simp

set_option maxRecDepth 8000 in
/-- Support bound for `maskCard`: the eroded thresholded silhouette is on only
strictly inside the 300×250 frame, with margin greater than 5 on every side. -/
theorem maskCard_support : ∀ i j, i < 300 → j < 250 → maskCard.pix i j ≠ 0 →
    6 ≤ i ∧ i < 294 ∧ 6 ≤ j ∧ j < 244 := by
  intro i j hi hj hnz
  have hnz2 : erodePix (thresholdImg 180 255 ⟨300, 250, fillPixCard⟩) i j ≠ 0 := hnz
  have hle := erodePix_le (thresholdImg 180 255 ⟨300, 250, fillPixCard⟩) i j
  have hth : (thresholdImg 180 255 ⟨300, 250, fillPixCard⟩).pix i j ≠ 0 := by omega
  have hfp : 180 < fillPixCard i j := by
    by_contra hno
    apply hth
    show cvThreshBinary 180 255 (fillPixCard i j) = 0
    simp only [cvThreshBinary]
    rw [if_neg hno]
  have hcond : 100 ≤ i ∧ i < 150 ∧ 80 ≤ j ∧ j < 120 := by
    by_contra hno
    rw [show fillPixCard i j = 0 from by simp only [fillPixCard]; rw [if_neg hno]] at hfp
    omega
  omega

set_option maxRecDepth 8000 in
/-- Witness for claim C5: the 1000×1200 centered-card photo `imgCard` with the
vision-primitive outputs `cvCard`, whose mask is `maskCard`. -/
theorem c5_crop_centered_card_witness :
    imgCard.height = 1200 ∧ imgCard.width = 1000 ∧
    create_mask cvCard (resizeImg cvCard imgCard) = Except.ok maskCard ∧
    (∀ i j, i < 300 → j < 250 → maskCard.pix i j ≠ 0 →
      6 ≤ i ∧ i < 294 ∧ 6 ≤ j ∧ j < 244) ∧
    (∃ i j, i < 300 ∧ j < 250 ∧ maskCard.pix i j ≠ 0) ∧
    ((resizeImg cvCard imgCard).height = 300 ∧ (resizeImg cvCard imgCard).width = 250 ∧
     ∃ c, crop_image cvCard imgCard = Except.ok c ∧
       0 < c.height ∧ c.height < 300 ∧ 0 < c.width ∧ c.width < 250 ∧
       c.pix 0 0 = (0, 0, 0) ∧ c.pix 0 (c.width - 1) = (0, 0, 0) ∧
       c.pix (c.height - 1) 0 = (0, 0, 0) ∧
       c.pix (c.height - 1) (c.width - 1) = (0, 0, 0)) :=
  ⟨rfl, rfl, rfl, maskCard_support,
   ⟨120, 100, by omega, by omega, by decide⟩,
   c5_crop_centered_card cvCard imgCard maskCard rfl rfl rfl maskCard_support
     ⟨120, 100, by omega, by omega, by decide⟩⟩

/-- Claim C7: `get_model` builds the path `<cwd>/models/best.pt`, invokes the
download exactly when the models directory or the model file is absent (in
particular never when the file already exists), and always returns that path.
The hypothesis is filesystem consistency: a file cannot exist inside an absent
directory.  `succeeds` ranges over whether the best-effort fetch actually
produces the file. -/
theorem c7_get_model_download_iff_absent (succeeds : Bool) (cwd : String)
    (fs : ModelFS) (hcons : fs.bestExists = true → fs.modelsDirExists = true) :
    (get_model succeeds cwd fs).1 = cwd ++ "/models/best.pt" ∧
    (1 ≤ (get_model succeeds cwd fs).2.2 ↔
      (fs.modelsDirExists = false ∨ fs.bestExists = false)) ∧
    (fs.bestExists = true → (get_model succeeds cwd fs).2.2 = 0) := by
  have hpath : (get_model succeeds cwd fs).1 = cwd ++ "/models/best.pt" := by
    show (cwd ++ "/models") ++ "/best.pt" = cwd ++ "/models/best.pt"
    rw [String.append_assoc]
    congr 1
  obtain ⟨md, be⟩ := fs
  cases md <;> cases be <;> cases succeeds <;>
    simp_all [get_model, download_from_drive]

/-- Witness for claim C7: a fresh working directory (neither `models` nor
`best.pt` present). -/
theorem c7_get_model_download_iff_absent_witness :
    ((ModelFS.mk false false).bestExists = true →
      (ModelFS.mk false false).modelsDirExists = true) ∧
    ((get_model true "/root" ⟨false, false⟩).1 = "/root" ++ "/models/best.pt" ∧
     (1 ≤ (get_model true "/root" ⟨false, false⟩).2.2 ↔
       ((ModelFS.mk false false).modelsDirExists = false ∨
        (ModelFS.mk false false).bestExists = false)) ∧
     ((ModelFS.mk false false).bestExists = true →
       (get_model true "/root" ⟨false, false⟩).2.2 = 0)) :=
  ⟨(by intro h; exact absurd h (by decide)),
   c7_get_model_download_iff_absent true "/root" ⟨false, false⟩
     (by intro h; exact absurd h (by decide))⟩

/-- Claim C8: the isolation pipeline is deterministic and purely functional:
`find_edges`, `create_mask` and `crop_image` are state-free functions of the
`CV` parameters and the input image alone (their embedding carries no state
type at all), so two invocations on equal inputs give equal outputs. -/
theorem c8_pipeline_deterministic (cvo : CV) (img1 img2 : Img)
    (h : img1 = img2) :
    find_edges cvo img1 = find_edges cvo img2 ∧
    create_mask cvo img1 = create_mask cvo img2 ∧
    crop_image cvo img1 = crop_image cvo img2 := by
  subst h
  exact ⟨rfl, rfl, rfl⟩

/-- Witness for claim C8: the two invocations on the 44×44 photo. -/
theorem c8_pipeline_deterministic_witness :
    img44 = img44 ∧
    (find_edges cvTopStripe img44 = find_edges cvTopStripe img44 ∧
     create_mask cvTopStripe img44 = create_mask cvTopStripe img44 ∧
     crop_image cvTopStripe img44 = crop_image cvTopStripe img44) :=
  ⟨rfl, c8_pipeline_deterministic cvTopStripe img44 img44 rfl⟩

/-- Claim C9: `save_image` keeps only the part of the file name before the
first dot: `cards/card.front.png` and `cards/card.back.png` are distinct
input files, both map to the saved name `card` (hence `card.jpg`), their save
paths coincide, and saving both into an empty output directory leaves a single
file. -/
theorem c9_save_image_truncates_at_first_dot (folder : String)
    (card1 card2 : Img) :
    "cards/card.front.png" ≠ "cards/card.back.png" ∧
    photoNameWithoutExtension "cards/card.front.png" = "card" ∧
    photoNameWithoutExtension "cards/card.back.png" = "card" ∧
    savePath "cards/card.front.png" folder = savePath "cards/card.back.png" folder ∧
    (save_image "cards/card.front.png" folder
      (save_image "cards/card.back.png" folder [] card2) card1).length = 1 := by
  have h1 : photoNameWithoutExtension "cards/card.front.png" = "card" := by decide
  have h2 : photoNameWithoutExtension "cards/card.back.png" = "card" := by decide
  have hpEq : savePath "cards/card.front.png" folder =
      savePath "cards/card.back.png" folder := by
    show folder ++ "/" ++ photoNameWithoutExtension "cards/card.front.png" ++ ".jpg" =
      folder ++ "/" ++ photoNameWithoutExtension "cards/card.back.png" ++ ".jpg"
    rw [h1, h2]
  refine ⟨by decide, h1, h2, hpEq, ?_⟩
  simp only [save_image, hpEq]
  simp [writeFile]

/-- Claim C6 counterexample: an input directory with exactly 3 readable photo
files (`a.b.png`, `a.c.png`, `d.png`) for which the batch writes only 2 files,
because the saved names are truncated at the first dot and `a.b.png` and
`a.c.png` both save as `a.jpg`. -/
theorem c6_counterexample_three_photos_two_files :
    entriesDotNames.length = 3 ∧
    (∀ e ∈ entriesDotNames, (imread e.2).isSome = true) ∧
    batchFileCount (process_photos cvTopStripe "photos" [] entriesDotNames []) =
      some 2 := by
  refine ⟨rfl, ?_, by decide⟩
  intro e he
  fin_cases he <;> rfl

/-- Claim C6 (amended): given an input directory of exactly 3 readable photo
files that all crop successfully, `process_photos` creates exactly one sibling
directory `<dir> ++ "_processed"` (only if absent) and, writing each file
under the part of its source name before the first dot plus `".jpg"`, writes
exactly 3 JPEG files whenever those truncated names are pairwise distinct. -/
theorem c6_batch_three_photos (cvo : CV) (dir : String) (dirs : List String)
    (n1 n2 n3 : String) (i1 i2 i3 c1 c2 c3 : Img)
    (hdir : dirs.contains (dir ++ "_processed") = false)
    (h1 : crop_image cvo i1 = Except.ok c1)
    (h2 : crop_image cvo i2 = Except.ok c2)
    (h3 : crop_image cvo i3 = Except.ok c3)
    (b12 : photoNameWithoutExtension (dir ++ "/" ++ n1) ≠
      photoNameWithoutExtension (dir ++ "/" ++ n2))
    (b13 : photoNameWithoutExtension (dir ++ "/" ++ n1) ≠
      photoNameWithoutExtension (dir ++ "/" ++ n3))
    (b23 : photoNameWithoutExtension (dir ++ "/" ++ n2) ≠
      photoNameWithoutExtension (dir ++ "/" ++ n3)) :
    process_photos cvo dir dirs
      [(n1, FileKind.image i1), (n2, FileKind.image i2), (n3, FileKind.image i3)] [] =
    Except.ok (dir ++ "_processed", (dir ++ "_processed") :: dirs,
      [(savePath (dir ++ "/" ++ n1) (dir ++ "_processed"), c1),
       (savePath (dir ++ "/" ++ n2) (dir ++ "_processed"), c2),
       (savePath (dir ++ "/" ++ n3) (dir ++ "_processed"), c3)]) := by
  have hp12 : savePath (dir ++ "/" ++ n1) (dir ++ "_processed") ≠
      savePath (dir ++ "/" ++ n2) (dir ++ "_processed") := by
    show (dir ++ "_processed") ++ "/" ++ photoNameWithoutExtension (dir ++ "/" ++ n1) ++ ".jpg" ≠
      (dir ++ "_processed") ++ "/" ++ photoNameWithoutExtension (dir ++ "/" ++ n2) ++ ".jpg"
    exact strAppend_ne _ _ _ _ b12
  have hp13 : savePath (dir ++ "/" ++ n1) (dir ++ "_processed") ≠
      savePath (dir ++ "/" ++ n3) (dir ++ "_processed") := by
    show (dir ++ "_processed") ++ "/" ++ photoNameWithoutExtension (dir ++ "/" ++ n1) ++ ".jpg" ≠
      (dir ++ "_processed") ++ "/" ++ photoNameWithoutExtension (dir ++ "/" ++ n3) ++ ".jpg"
    exact strAppend_ne _ _ _ _ b13
  have hp23 : savePath (dir ++ "/" ++ n2) (dir ++ "_processed") ≠
      savePath (dir ++ "/" ++ n3) (dir ++ "_processed") := by
    show (dir ++ "_processed") ++ "/" ++ photoNameWithoutExtension (dir ++ "/" ++ n2) ++ ".jpg" ≠
      (dir ++ "_processed") ++ "/" ++ photoNameWithoutExtension (dir ++ "/" ++ n3) ++ ".jpg"
    exact strAppend_ne _ _ _ _ b23
  have hout : create_playing_card_dir dir dirs =
      (dir ++ "_processed", (dir ++ "_processed") :: dirs) := by
    simp only [create_playing_card_dir]
    rw [hdir]
    simp
  have w1 : writeFile [] (savePath (dir ++ "/" ++ n1) (dir ++ "_processed")) c1 =
      [(savePath (dir ++ "/" ++ n1) (dir ++ "_processed"), c1)] := rfl
  have w2 : writeFile [(savePath (dir ++ "/" ++ n1) (dir ++ "_processed"), c1)]
      (savePath (dir ++ "/" ++ n2) (dir ++ "_processed")) c2 =
      [(savePath (dir ++ "/" ++ n1) (dir ++ "_processed"), c1),
       (savePath (dir ++ "/" ++ n2) (dir ++ "_processed"), c2)] := by
    have hc : (([(savePath (dir ++ "/" ++ n1) (dir ++ "_processed"), c1)].map
        Prod.fst).contains (savePath (dir ++ "/" ++ n2) (dir ++ "_processed"))) = false := by
      simp only [List.map]
      exact contains_cons_false _ _ _ (Ne.symm hp12) (contains_nil_false _)
    simp only [writeFile, hc]
    simp
  have w3 : writeFile
      [(savePath (dir ++ "/" ++ n1) (dir ++ "_processed"), c1),
       (savePath (dir ++ "/" ++ n2) (dir ++ "_processed"), c2)]
      (savePath (dir ++ "/" ++ n3) (dir ++ "_processed")) c3 =
      [(savePath (dir ++ "/" ++ n1) (dir ++ "_processed"), c1),
       (savePath (dir ++ "/" ++ n2) (dir ++ "_processed"), c2),
       (savePath (dir ++ "/" ++ n3) (dir ++ "_processed"), c3)] := by
    have hc : (([(savePath (dir ++ "/" ++ n1) (dir ++ "_processed"), c1),
        (savePath (dir ++ "/" ++ n2) (dir ++ "_processed"), c2)].map
        Prod.fst).contains (savePath (dir ++ "/" ++ n3) (dir ++ "_processed"))) = false := by
      simp only [List.map]
      exact contains_cons_false _ _ _ (Ne.symm hp13)
        (contains_cons_false _ _ _ (Ne.symm hp23) (contains_nil_false _))
    simp only [writeFile, hc]
    simp
  have hloop : processLoop cvo dir (dir ++ "_processed")
      [(n1, FileKind.image i1), (n2, FileKind.image i2), (n3, FileKind.image i3)] [] =
      Except.ok
        [(savePath (dir ++ "/" ++ n1) (dir ++ "_processed"), c1),
         (savePath (dir ++ "/" ++ n2) (dir ++ "_processed"), c2),
         (savePath (dir ++ "/" ++ n3) (dir ++ "_processed"), c3)] := by
    simp only [processLoop, imread, h1, h2, h3, save_image]
    rw [w1, w2, w3]
  simp only [process_photos, hout]
  rw [hloop]
  rfl

/-- Witness for claim C6 (amended): three readable single-dot photos
`a.png`, `b.png`, `c.png` in directory `photos`, no pre-existing
`photos_processed`. -/
theorem c6_batch_three_photos_witness :
    (([] : List String).contains ("photos" ++ "_processed") = false) ∧
    crop_image cvTopStripe img44 = Except.ok cardC ∧
    photoNameWithoutExtension ("photos" ++ "/" ++ "a.png") ≠
      photoNameWithoutExtension ("photos" ++ "/" ++ "b.png") ∧
    process_photos cvTopStripe "photos" []
      [("a.png", FileKind.image img44), ("b.png", FileKind.image img44),
       ("c.png", FileKind.image img44)] [] =
    Except.ok ("photos" ++ "_processed", ("photos" ++ "_processed") :: ([] : List String),
      [(savePath ("photos" ++ "/" ++ "a.png") ("photos" ++ "_processed"), cardC),
       (savePath ("photos" ++ "/" ++ "b.png") ("photos" ++ "_processed"), cardC),
       (savePath ("photos" ++ "/" ++ "c.png") ("photos" ++ "_processed"), cardC)]) :=
  ⟨rfl, rfl, by decide,
   c6_batch_three_photos cvTopStripe "photos" [] "a.png" "b.png" "c.png"
     img44 img44 img44 cardC cardC cardC rfl rfl rfl rfl
     (by decide) (by decide) (by decide)⟩

/-- The per-photo loop aborts with the `None`-shape fault as soon as an entry
`cv.imread` cannot decode is reached, provided the readable photos before it
crop successfully. -/
theorem processLoop_error_of_bad_entry (cvo : CV) (photosDir outDir : String) :
    ∀ (entries : List (String × FileKind)) (files : List (String × Img)),
    (∀ nm im, (nm, FileKind.image im) ∈ entries →
      ∃ c, crop_image cvo im = Except.ok c) →
    (∃ nm k, (nm, k) ∈ entries ∧ imread k = none) →
    ∃ p, processLoop cvo photosDir outDir entries files =
      Except.error (BatchErr.noneTypeShapeError p) := by
  intro entries
  induction entries with
  | nil =>
    intro files _ hbad
    obtain ⟨nm, k, hmem, _⟩ := hbad
    cases hmem
  | cons e rest ih =>
    intro files hok hbad
    obtain ⟨nm0, k0⟩ := e
    cases hk : imread k0 with
    | none => exact ⟨photosDir ++ "/" ++ nm0, by simp [processLoop, hk]⟩
    | some photo =>
      have himg : k0 = FileKind.image photo := by
        cases k0 with
        | image i => simp only [imread, Option.some.injEq] at hk; rw [hk]
        | nonImage => simp [imread] at hk
        | subdir => simp [imread] at hk
      obtain ⟨c, hc⟩ := hok nm0 photo (by rw [himg] at *; exact List.mem_cons_self _ _)
      have hok' : ∀ nm im, (nm, FileKind.image im) ∈ rest →
          ∃ d, crop_image cvo im = Except.ok d :=
        fun nm im hm => hok nm im (List.mem_cons_of_mem _ hm)
      have hbad' : ∃ nm k, (nm, k) ∈ rest ∧ imread k = none := by
        obtain ⟨nm, k, hmem, hnone⟩ := hbad
        rcases List.mem_cons.mp hmem with heq | hmem'
        · rw [Prod.mk.injEq] at heq
          rw [heq.2, hk] at hnone
          cases hnone
        · exact ⟨nm, k, hmem', hnone⟩
      obtain ⟨p, hp⟩ :=
        ih (save_image (photosDir ++ "/" ++ nm0) outDir files c) hok' hbad'
      exact ⟨p, by simp [processLoop, hk, hc, hp]⟩

/-- Claim C10: `process_photos` has no skip-and-continue handling: whenever
the input directory holds an entry that is not a decodable color image (a
non-image file or a sub-directory), and the readable photos crop normally,
the whole batch aborts with the `None`-shape fault raised inside `crop_image`
when unpacking `img.shape`. -/
theorem c10_batch_aborts_on_unreadable_entry (cvo : CV) (photosDir : String)
    (existingDirs : List String) (entries : List (String × FileKind))
    (outFiles : List (String × Img))
    (hok : ∀ nm im, (nm, FileKind.image im) ∈ entries →
      ∃ c, crop_image cvo im = Except.ok c)
    (hbad : ∃ nm k, (nm, k) ∈ entries ∧ imread k = none) :
    ∃ p, process_photos cvo photosDir existingDirs entries outFiles =
      Except.error (BatchErr.noneTypeShapeError p) := by
  obtain ⟨p, hp⟩ := processLoop_error_of_bad_entry cvo photosDir
    (create_playing_card_dir photosDir existingDirs).1 entries outFiles hok hbad
  refine ⟨p, ?_⟩
  simp only [process_photos]
  rw [hp]
  rfl

/-- Witness for claim C10: a directory holding a single text file. -/
theorem c10_batch_aborts_on_unreadable_entry_witness :
    imread FileKind.nonImage = none ∧
    ∃ p, process_photos cvNoEdges "photos" [] [("notes.txt", FileKind.nonImage)] [] =
      Except.error (BatchErr.noneTypeShapeError p) :=
  ⟨rfl,
   c10_batch_aborts_on_unreadable_entry cvNoEdges "photos" [] _ []
     (by intro nm im h; simp at h)
     ⟨"notes.txt", FileKind.nonImage, by simp, rfl⟩⟩

